import Mathlib

/-!
# VSFBookingBot coordination core: a shallow embedding

This file embeds the coordination core of the VSFBookingBot repository
(`priority_manager.py`, `retry_manager.py`, `health_check.py`) into Lean 4
and proves the testable properties stated in the specification.

Modelling conventions:
* `datetime` values and `time.time()` timestamps become rationals (`ℚ`);
* Python `int` becomes `ℤ` (or `ℕ` for counters that never go negative);
* a Python value that may be any object (e.g. a slot's `type` field at
  runtime) is modelled by an open inductive type with an `other` variant;
* exceptions become `Except String`; the random jitter draw becomes an
  explicit parameter constrained to the documented interval;
* Python's `sorted(key=...)` is a stable sort by a total preorder; it is
  embedded as `List.mergeSort` (Lean's stable sort) with the boolean
  comparison induced by the same key.
-/

namespace VSF

/-! ## Slot data model — `src/priority_manager.py`

`class AngolaToPortugalVisaType(Enum)` has members `NACIONAL` and `SCHENGEN`.
At runtime a `Slot.type` field may hold any object, which `validate_slots`
filters; the `other` variant models such unrecognized values. -/

inductive VisaType where
  | nacional
  | schengen
  | other (label : String)
deriving DecidableEq, Repr

/-- `@dataclass class Slot`: `id: str`, `date: datetime`, `type`,
`available_spots: int`. Dates are modelled as rationals. -/
structure Slot where
  id : String
  date : ℚ
  type : VisaType
  available_spots : ℤ
deriving DecidableEq, Repr

/-- The composite sort key used by `apply_prioritization_strategy`:
`(slot.type != NACIONAL, slot.type != SCHENGEN, slot.date)`. -/
def slotKey (s : Slot) : Bool × Bool × ℚ :=
  (decide (s.type ≠ VisaType.nacional), decide (s.type ≠ VisaType.schengen), s.date)

/-- Python's lexicographic `≤` on a `(bool, bool, date)` tuple
(with `False < True`). -/
def lex3 (p q : Bool × Bool × ℚ) : Bool :=
  if p.1 ≠ q.1 then (!p.1 && q.1)
  else if p.2.1 ≠ q.2.1 then (!p.2.1 && q.2.1)
  else decide (p.2.2 ≤ q.2.2)

/-- The comparison `sorted` uses under the key of
`apply_prioritization_strategy`. -/
def slotLe (a b : Slot) : Bool := lex3 (slotKey a) (slotKey b)

/-- `PriorityManager.apply_prioritization_strategy` (priority_manager.py
lines 85–97): `sorted(slots, key=lambda slot: (slot.type != NACIONAL,
slot.type != SCHENGEN, slot.date))`.  Python's `sorted` is a stable sort
by the key's preorder, embedded as the stable `List.mergeSort`. -/
def apply_prioritization_strategy (slots : List Slot) : List Slot :=
  slots.mergeSort slotLe

/-! ## Validation — `PriorityManager.validate_slots` (lines 147–163)

The loop drops a slot when its type is not a recognized visa category,
when `available_spots <= 0`, or when `date < datetime.now()`, and keeps
the rest in order.  (The `isinstance(slot, Slot)` guard is discharged by
the typed embedding.)  `datetime.now()` is the parameter `now`. -/

def validate_slots (now : ℚ) : List Slot → List Slot
  | [] => []
  | s :: rest =>
    if s.type ∉ [VisaType.nacional, VisaType.schengen] then validate_slots now rest
    else if s.available_spots ≤ 0 then validate_slots now rest
    else if s.date < now then validate_slots now rest
    else s :: validate_slots now rest

/-- A slot survives validation iff its type is recognized, it has spots
left, and its date is not in the past. -/
def isValidSlot (now : ℚ) (s : Slot) : Bool :=
  decide (s.type = VisaType.nacional ∨ s.type = VisaType.schengen)
    && decide (0 < s.available_spots)
    && decide (¬ s.date < now)

/-! ## Facts about the comparison -/

theorem lex3_total (p q : Bool × Bool × ℚ) : (lex3 p q || lex3 q p) = true := by
  obtain ⟨p1, p2, pd⟩ := p
  obtain ⟨q1, q2, qd⟩ := q
  simp only [lex3]
  cases p1 <;> cases q1 <;> cases p2 <;> cases q2 <;>
    simp [le_total pd qd, decide_eq_true_eq]

theorem lex3_trans {p q r : Bool × Bool × ℚ} (h1 : lex3 p q = true)
    (h2 : lex3 q r = true) : lex3 p r = true := by
  obtain ⟨p1, p2, pd⟩ := p
  obtain ⟨q1, q2, qd⟩ := q
  obtain ⟨r1, r2, rd⟩ := r
  simp only [lex3] at h1 h2 ⊢
  cases p1 <;> cases q1 <;> cases r1 <;> cases p2 <;> cases q2 <;> cases r2 <;>
    simp_all [decide_eq_true_eq] <;> exact le_trans h1 h2

theorem slotLe_total (a b : Slot) : (slotLe a b || slotLe b a) = true :=
  lex3_total (slotKey a) (slotKey b)

theorem slotLe_trans (a b c : Slot) (h1 : slotLe a b = true)
    (h2 : slotLe b c = true) : slotLe a c = true :=
  lex3_trans h1 h2

theorem slotLe_of_key_eq {a b : Slot} (h : slotKey a = slotKey b) :
    slotLe a b = true := by
  unfold slotLe
  rw [h]
  obtain ⟨q1, q2, qd⟩ := slotKey b
  simp [lex3]

theorem slotLe_not_schengen_before_nacional {a b : Slot}
    (h : slotLe a b = true) : ¬(a.type = VisaType.schengen ∧ b.type = VisaType.nacional) := by
  rintro ⟨ha, hb⟩
  simp [slotLe, slotKey, lex3, ha, hb] at h

theorem slotLe_date_mono {a b : Slot} (h : slotLe a b = true)
    (ht : a.type = b.type) : a.date ≤ b.date := by
  simp [slotLe, slotKey, lex3, ht] at h
  exact h

/-- C1: for every list of slots, the ranked output of
`apply_prioritization_strategy` is a permutation of the input in which no
SCHENGEN slot precedes a NACIONAL slot, dates are non-decreasing within
each visa category, and the sort is stable: two slots with equal composite
keys keep their input order. -/
theorem C1_priority_ranking_sorted_stable (slots : List Slot) :
    (apply_prioritization_strategy slots).Perm slots
    ∧ (apply_prioritization_strategy slots).Pairwise
        (fun a b => ¬(a.type = VisaType.schengen ∧ b.type = VisaType.nacional))
    ∧ (apply_prioritization_strategy slots).Pairwise
        (fun a b => a.type = b.type → a.date ≤ b.date)
    ∧ ∀ a b : Slot, slotKey a = slotKey b → [a, b].Sublist slots →
        [a, b].Sublist (apply_prioritization_strategy slots) := by
  refine ⟨List.mergeSort_perm slots slotLe, ?_, ?_, ?_⟩
  · exact (List.sorted_mergeSort slotLe_trans slotLe_total slots).imp
      (fun h => slotLe_not_schengen_before_nacional h)
  · exact (List.sorted_mergeSort slotLe_trans slotLe_total slots).imp
      (fun h ht => slotLe_date_mono h ht)
  · intro a b hk hsub
    exact List.pair_sublist_mergeSort slotLe_trans slotLe_total
      (slotLe_of_key_eq hk) hsub

/-- Witness for C1: instantiated on a concrete three-slot list, the
stability conjunct yields that two equal-key NACIONAL slots keep their
input order in the ranked output. -/
theorem C1_priority_ranking_sorted_stable_witness :
    [⟨"a", 5, VisaType.nacional, 3⟩, ⟨"b", 5, VisaType.nacional, 1⟩].Sublist
      (apply_prioritization_strategy
        [⟨"c", 9, VisaType.schengen, 2⟩, ⟨"a", 5, VisaType.nacional, 3⟩,
         ⟨"b", 5, VisaType.nacional, 1⟩]) :=
  (C1_priority_ranking_sorted_stable
      [⟨"c", 9, VisaType.schengen, 2⟩, ⟨"a", 5, VisaType.nacional, 3⟩,
       ⟨"b", 5, VisaType.nacional, 1⟩]).2.2.2
    ⟨"a", 5, VisaType.nacional, 3⟩ ⟨"b", 5, VisaType.nacional, 1⟩
    (by decide) ((List.Sublist.refl _).cons _)

/-! ## Facts about validation -/

theorem validate_slots_eq_filter (now : ℚ) (slots : List Slot) :
    validate_slots now slots = slots.filter (isValidSlot now) := by
  induction slots with
  | nil => rfl
  | cons s rest ih =>
    rw [validate_slots, List.filter_cons]
    split_ifs with h1 h2 h3 <;> simp_all [isValidSlot]
    omega

/-- C7: `validate_slots` removes exactly the invalid slots (unrecognized
visa type, non-positive `available_spots`, or past date) and keeps the
rest in order: it equals a filter by validity, it returns an all-valid
list unchanged (so re-validation is idempotent), and on a list containing
one past-dated slot and one zero-spot slot among otherwise-valid slots it
removes exactly those two. -/
theorem C7_validate_slots_exact (now : ℚ) :
    (∀ slots : List Slot, validate_slots now slots = slots.filter (isValidSlot now))
    ∧ (∀ slots : List Slot, (∀ s ∈ slots, isValidSlot now s = true) →
        validate_slots now slots = slots)
    ∧ (∀ slots : List Slot,
        validate_slots now (validate_slots now slots) = validate_slots now slots)
    ∧ (∀ l1 l2 l3 : List Slot, ∀ p z : Slot,
        (∀ s ∈ l1 ++ l2 ++ l3, isValidSlot now s = true) →
        p.date < now → z.available_spots ≤ 0 →
        validate_slots now (l1 ++ p :: (l2 ++ z :: l3)) = l1 ++ (l2 ++ l3)) := by
  refine ⟨validate_slots_eq_filter now, ?_, ?_, ?_⟩
  · intro slots h
    rw [validate_slots_eq_filter]
    exact List.filter_eq_self.mpr h
  · intro slots
    rw [validate_slots_eq_filter, validate_slots_eq_filter, List.filter_eq_self]
    intro a ha
    exact List.of_mem_filter ha
  · intro l1 l2 l3 p z hvalid hp hz
    have hp' : isValidSlot now p = false := by simp [isValidSlot, hp]
    have hz' : isValidSlot now z = false := by
      simp [isValidSlot, not_lt.mpr hz]
    have h1 : l1.filter (isValidSlot now) = l1 :=
      List.filter_eq_self.mpr (fun s hs => hvalid s (by simp [hs]))
    have h2 : l2.filter (isValidSlot now) = l2 :=
      List.filter_eq_self.mpr (fun s hs => hvalid s (by simp [hs]))
    have h3 : l3.filter (isValidSlot now) = l3 :=
      List.filter_eq_self.mpr (fun s hs => hvalid s (by simp [hs]))
    simp [validate_slots_eq_filter, List.filter_append, List.filter_cons, hp', hz',
      h1, h2, h3]

/-- Witness for C7: a concrete five-slot list containing one past-dated
slot and one zero-spot slot validates to exactly the other three, in
order. -/
theorem C7_validate_slots_exact_witness :
    validate_slots 10
        ([Slot.mk "v1" 12 VisaType.nacional 2] ++ Slot.mk "p" 3 VisaType.schengen 2 ::
          ([Slot.mk "v2" 15 VisaType.schengen 1] ++ Slot.mk "z" 20 VisaType.nacional 0 ::
            [Slot.mk "v3" 30 VisaType.nacional 5]))
      = [Slot.mk "v1" 12 VisaType.nacional 2] ++
          ([Slot.mk "v2" 15 VisaType.schengen 1] ++ [Slot.mk "v3" 30 VisaType.nacional 5]) :=
  (C7_validate_slots_exact 10).2.2.2
    [Slot.mk "v1" 12 VisaType.nacional 2]
    [Slot.mk "v2" 15 VisaType.schengen 1]
    [Slot.mk "v3" 30 VisaType.nacional 5]
    (Slot.mk "p" 3 VisaType.schengen 2)
    (Slot.mk "z" 20 VisaType.nacional 0)
    (by decide) (by decide) (by decide)

/-! ## Circuit breaker — `src/retry_manager.py` lines 23–58

State and fields follow `class CircuitBreaker`.  `time.time()` values are
rationals supplied by the caller; `time.time()` is strictly positive, so a
stamped `last_failure_time` (`some t`) is always truthy in the Python
condition `self.last_failure_time and ...`. -/

inductive CBState where
  | closed
  | isOpen
  | halfOpen
deriving DecidableEq, Repr

structure CircuitBreaker where
  failure_threshold : ℕ
  reset_timeout : ℚ
  failures : ℕ
  state : CBState
  last_failure_time : Option ℚ
deriving DecidableEq, Repr

/-- `CircuitBreaker.__init__` with the given options and the initial
`failures = 0`, `state = CLOSED`, `last_failure_time = None`. -/
def CircuitBreaker.fresh (failure_threshold : ℕ) (reset_timeout : ℚ) : CircuitBreaker :=
  ⟨failure_threshold, reset_timeout, 0, CBState.closed, none⟩

/-- `record_success`: reset failures to 0, force state to CLOSED. -/
def CircuitBreaker.record_success (cb : CircuitBreaker) : CircuitBreaker :=
  { cb with failures := 0, state := CBState.closed }

/-- `record_failure` (lines 42–49): increment failures, stamp
`last_failure_time`; if failures ≥ threshold, state becomes OPEN. -/
def CircuitBreaker.record_failure (cb : CircuitBreaker) (now : ℚ) : CircuitBreaker :=
  if cb.failures + 1 ≥ cb.failure_threshold then
    { cb with failures := cb.failures + 1, last_failure_time := some now,
              state := CBState.isOpen }
  else
    { cb with failures := cb.failures + 1, last_failure_time := some now }

/-- The condition `self.last_failure_time and (time.time() -
self.last_failure_time > self.reset_timeout)`. -/
def CircuitBreaker.timeElapsed (cb : CircuitBreaker) (now : ℚ) : Bool :=
  match cb.last_failure_time with
  | none => false
  | some t => decide (now - t > cb.reset_timeout)

/-- `can_request` (lines 51–58).  It may mutate the state (OPEN →
HALF-OPEN), so it returns the updated breaker together with the boolean.
The final line of the source is `return self.state != OPEN`. -/
def CircuitBreaker.can_request (cb : CircuitBreaker) (now : ℚ) : CircuitBreaker × Bool :=
  if cb.state = CBState.closed then (cb, true)
  else if cb.state = CBState.isOpen ∧ cb.timeElapsed now = true then
    ({ cb with state := CBState.halfOpen }, true)
  else (cb, decide (cb.state ≠ CBState.isOpen))

/-! ## Backoff — `RetryManager.calculate_delay` and `fibonacci`
(retry_manager.py lines 123–145) -/

/-- The loop `for _ in range(2, n): a, b = b, a + b` starting from
`a, b = 1, 1`, run `k` times. -/
def fibLoop : ℕ → ℤ × ℤ → ℤ × ℤ
  | 0, ab => ab
  | k + 1, (a, b) => fibLoop k (b, a + b)

/-- `RetryManager.fibonacci`: `if n <= 1: return 1`, then the loop over
`range(2, n)` (which iterates `n - 2` times) returning `b`. -/
def fibonacci (n : ℕ) : ℤ :=
  if n ≤ 1 then 1 else (fibLoop (n - 2) (1, 1)).2

/-- The retry options consulted by `calculate_delay` and `retry`.
`retry_strategy` is kept as a string: the source compares it against
string literals and falls through to the fixed delay otherwise. -/
structure RetryOptions where
  max_retries : ℕ
  retry_strategy : String
  base_delay : ℚ
  max_delay : ℚ
deriving Repr

/-- The pre-jitter delay chosen by the `if/elif` chain of
`calculate_delay` (lines 124–131). -/
def preJitterDelay (opts : RetryOptions) (attempt : ℕ) : ℚ :=
  if opts.retry_strategy = "linear" then opts.base_delay * attempt
  else if opts.retry_strategy = "exponential" then opts.base_delay * 2 ^ (attempt - 1)
  else if opts.retry_strategy = "fibonacci" then (fibonacci attempt : ℚ) * opts.base_delay
  else opts.base_delay

/-- `calculate_delay` (lines 123–137): pre-jitter delay, plus a jitter
drawn from `uniform(0, 0.1 * delay)` (passed in explicitly), clamped by
`min` to `max_delay`. -/
def calculate_delay (opts : RetryOptions) (attempt : ℕ) (jitter : ℚ) : ℚ :=
  min (preJitterDelay opts attempt + jitter) opts.max_delay

/-! ## The retry loop — `RetryManager.retry` (retry_manager.py lines 72–121)

The wrapped operation is modelled by the outcome of each of its
invocations: success with a value, a transient error (`asyncio.TimeoutError`,
`ClientError`, `ServerTimeoutError` — the first `except` arm, which does
not sleep), or any other exception (the second arm, which sleeps unless
exhausted).  Because every loop iteration that continues increments
`attempts` by exactly one, the iteration index equals the current value
of `attempts`; `op`, the clock `tick` and the jitter draw `jit` are
indexed accordingly. -/

inductive OpResult (α : Type) where
  | ok (v : α)
  | transientErr (e : String)
  | otherErr (e : String)
deriving DecidableEq, Repr

/-- An exception value the loop may hold in `last_error`: either an
exception raised by one invocation of the operation (identified by its
`str(...)`), or the `RetryError('Circuit breaker is open',
Exception('Circuit breaker open'), attempts)` constructed at line 82 when
`can_request()` is false (its message and inner exception are constants,
so the attempt counter at the raise determines it). -/
inductive PyErr where
  | opErr (e : String)
  | circuitOpen (attempts : ℕ)
deriving DecidableEq, Repr

/-- The exception an invocation raised, if any. -/
def errOf {α : Type} : OpResult α → Option PyErr
  | OpResult.ok _ => none
  | OpResult.transientErr e => some (PyErr.opErr e)
  | OpResult.otherErr e => some (PyErr.opErr e)

/-- `@dataclass class RetryError(Exception)`: `message`, `last_error`
(`none` when no attempt has failed yet), `attempts`. -/
structure RetryError where
  message : String
  last_error : Option PyErr
  attempts : ℕ
deriving DecidableEq, Repr

inductive RetryResult (α : Type) where
  | ok (v : α)
  | err (e : RetryError)
deriving DecidableEq, Repr

/-- Observable outcome of one `retry` call: the returned value or raised
error, how many times the operation was invoked, and the backoff delays
slept (in order). -/
structure RetryTrace (α : Type) where
  result : RetryResult α
  invocations : ℕ
  sleeps : List ℚ
deriving DecidableEq, Repr

/-- The `while attempts < retry_options['max_retries']` loop, with
`fuel = max_retries - attempts` as the decreasing measure.  Each
iteration: if `can_request()` is false, line 82 raises
`RetryError('Circuit breaker is open', Exception('Circuit breaker open'),
attempts)` — but this raise sits inside the try block and `RetryError`
subclasses `Exception`, so the loop's own `except Exception` arm catches
it: `last_error` becomes that error, `attempts` is incremented, a breaker
failure is recorded, the backoff delay is computed, and the loop breaks
if `attempts >= max_retries` and otherwise sleeps and continues — the
operation is not invoked in such an iteration.  Otherwise the operation
is invoked; on success return; on a transient error record the failure
and continue without sleeping; on any other error record the failure,
compute the backoff delay, `break` if `attempts >= max_retries`, else
sleep.  Falling out of the loop raises
`RetryError('Max retries reached (...)', last_error, attempts)`. -/
def retryGo {α : Type} (op : ℕ → OpResult α) (tick : ℕ → ℚ) (jit : ℕ → ℚ)
    (opts : RetryOptions) :
    ℕ → ℕ → CircuitBreaker → Option PyErr → ℕ → List ℚ → RetryTrace α
  | 0, attempts, _cb, lastErr, inv, sleeps =>
      ⟨RetryResult.err ⟨"Max retries reached (" ++ toString opts.max_retries ++ ")",
        lastErr, attempts⟩, inv, sleeps⟩
  | fuel + 1, attempts, cb, _lastError, inv, sleeps =>
    let now := tick attempts
    let step := cb.can_request now
    if step.2 = false then
      let d := calculate_delay opts (attempts + 1) (jit (attempts + 1))
      if attempts + 1 ≥ opts.max_retries then
        ⟨RetryResult.err ⟨"Max retries reached (" ++ toString opts.max_retries ++ ")",
          some (PyErr.circuitOpen attempts), attempts + 1⟩, inv, sleeps⟩
      else
        retryGo op tick jit opts fuel (attempts + 1) (step.1.record_failure now)
          (some (PyErr.circuitOpen attempts)) inv (sleeps ++ [d])
    else
      match op attempts with
      | OpResult.ok v => ⟨RetryResult.ok v, inv + 1, sleeps⟩
      | OpResult.transientErr e =>
          retryGo op tick jit opts fuel (attempts + 1) (step.1.record_failure now)
            (some (PyErr.opErr e)) (inv + 1) sleeps
      | OpResult.otherErr e =>
          let d := calculate_delay opts (attempts + 1) (jit (attempts + 1))
          if attempts + 1 ≥ opts.max_retries then
            ⟨RetryResult.err ⟨"Max retries reached (" ++ toString opts.max_retries ++ ")",
              some (PyErr.opErr e), attempts + 1⟩, inv + 1, sleeps⟩
          else
            retryGo op tick jit opts fuel (attempts + 1) (step.1.record_failure now)
              (some (PyErr.opErr e)) (inv + 1) (sleeps ++ [d])

/-- `RetryManager.retry`: run the loop from `attempts = 0` with the
manager's circuit breaker (`cb`) and no last error. -/
def retry {α : Type} (op : ℕ → OpResult α) (tick : ℕ → ℚ) (jit : ℕ → ℚ)
    (opts : RetryOptions) (cb : CircuitBreaker) : RetryTrace α :=
  retryGo op tick jit opts opts.max_retries 0 cb none 0 []

/-! ## Fibonacci: loop versus recurrence -/

/-- The Fibonacci convention the source's `fibonacci` implements, written
as a plain recurrence: `fib 1 = fib 2 = 1` and
`fib (n+1) = fib n + fib (n-1)` from `n = 2` on (with `fib 0 = 1` for the
`n <= 1` early return). -/
def recFib : ℕ → ℤ
  | 0 => 1
  | 1 => 1
  | 2 => 1
  | n + 3 => recFib (n + 2) + recFib (n + 1)

/-- Modelled from the spec: the Fibonacci convention the specification
words for the backoff formula, `fib(0) = fib(1) = 1` with
`fib(n) = fib(n-1) + fib(n-2)` thereafter. -/
def specFib : ℕ → ℤ
  | 0 => 1
  | 1 => 1
  | n + 2 => specFib (n + 1) + specFib n

theorem fibLoop_succ (k : ℕ) (a b : ℤ) :
    fibLoop (k + 1) (a, b) =
      ((fibLoop k (a, b)).2, (fibLoop k (a, b)).1 + (fibLoop k (a, b)).2) := by
  induction k generalizing a b with
  | zero => rfl
  | succ k ih =>
    show fibLoop (k + 1) (b, a + b) = _
    rw [ih b (a + b)]
    rfl

theorem fibLoop_one_one_snd (m : ℕ) : (fibLoop m (1, 1)).2 = fibonacci (m + 2) := by
  simp [fibonacci]

theorem fibLoop_one_one_fst (m : ℕ) : (fibLoop m (1, 1)).1 = fibonacci (m + 1) := by
  cases m with
  | zero => rfl
  | succ k =>
    rw [fibLoop_succ, fibLoop_one_one_snd]

/-- The source's loop computes exactly the recurrence with
`fib 1 = fib 2 = 1`. -/
theorem fibonacci_eq_recFib (n : ℕ) : fibonacci n = recFib n := by
  induction n using Nat.strong_induction_on with
  | _ n ih =>
    match n with
    | 0 => rfl
    | 1 => rfl
    | 2 => rfl
    | m + 3 =>
      have h1 : fibonacci (m + 3) = fibonacci (m + 1) + fibonacci (m + 2) := by
        show (fibLoop (m + 1) (1, 1)).2 = _
        rw [fibLoop_succ, fibLoop_one_one_fst, fibLoop_one_one_snd]
      rw [h1, ih (m + 1) (by omega), ih (m + 2) (by omega), recFib]
      ring

/-- C2 counterexample: at attempt 2 with `base_delay = 1`, the fibonacci
strategy's pre-jitter delay computed by `calculate_delay` is 1, while the
claim's formula `base * fib(attempt)` under the stated convention
`fib(0) = fib(1) = 1` gives `1 * fib(2) = 2`.  The source's loop
satisfies `fib(1) = fib(2) = 1` instead. -/
theorem C2_backoff_fibonacci_counterexample :
    preJitterDelay ⟨3, "fibonacci", 1, 100⟩ 2 = 1
    ∧ specFib 2 = 2
    ∧ preJitterDelay ⟨3, "fibonacci", 1, 100⟩ 2 ≠ (1 : ℚ) * (specFib 2 : ℚ) := by
  refine ⟨?_, by decide, ?_⟩
  · simp [preJitterDelay, fibonacci, fibLoop]
  · simp [preJitterDelay, fibonacci, fibLoop, specFib]

/-- C2 (amended): for every attempt `n ≥ 1` the pre-jitter delay equals
the stated formula with the source's Fibonacci convention
`fib(1) = fib(2) = 1` (linear `base*n`; exponential `base*2^(n-1)`;
fibonacci `base*fib(n)`; any other strategy the fixed `base`), and for
any jitter draw `j ∈ [0, 0.1*formula]` the post-jitter delay is the
clamp to `max_delay` of a value in `[formula, 1.1*formula]`. -/
theorem C2_backoff_bounds (opts : RetryOptions) (n : ℕ) (j : ℚ)
    (_hn : 1 ≤ n) (hj0 : 0 ≤ j) (hj1 : j ≤ (1/10) * preJitterDelay opts n) :
    (opts.retry_strategy = "linear" →
        preJitterDelay opts n = opts.base_delay * n)
    ∧ (opts.retry_strategy = "exponential" →
        preJitterDelay opts n = opts.base_delay * 2 ^ (n - 1))
    ∧ (opts.retry_strategy = "fibonacci" →
        preJitterDelay opts n = (recFib n : ℚ) * opts.base_delay)
    ∧ (opts.retry_strategy ≠ "linear" → opts.retry_strategy ≠ "exponential" →
        opts.retry_strategy ≠ "fibonacci" → preJitterDelay opts n = opts.base_delay)
    ∧ preJitterDelay opts n ≤ preJitterDelay opts n + j
    ∧ preJitterDelay opts n + j ≤ (11/10) * preJitterDelay opts n
    ∧ calculate_delay opts n j = min (preJitterDelay opts n + j) opts.max_delay := by
  refine ⟨?_, ?_, ?_, ?_, by linarith, by linarith, rfl⟩
  · intro h; simp [preJitterDelay, h]
  · intro h; simp [preJitterDelay, h]
  · intro h; simp [preJitterDelay, h, fibonacci_eq_recFib]
  · intro h1 h2 h3; simp [preJitterDelay, h1, h2, h3]

/-- Witness for C2 (amended): at `n = 2` with the exponential strategy,
`base_delay = 5`, `max_delay = 100` and jitter draw 1 (within
`[0, 0.1*10]`), the post-jitter delay obeys the stated bounds and clamp. -/
theorem C2_backoff_bounds_witness :
    preJitterDelay ⟨3, "exponential", 5, 100⟩ 2 + 1 ≤
        (11/10) * preJitterDelay ⟨3, "exponential", 5, 100⟩ 2
    ∧ calculate_delay ⟨3, "exponential", 5, 100⟩ 2 1 =
        min (preJitterDelay ⟨3, "exponential", 5, 100⟩ 2 + 1) 100 :=
  ⟨(C2_backoff_bounds ⟨3, "exponential", 5, 100⟩ 2 1 (by decide) (by norm_num)
      (by simp [preJitterDelay]; norm_num)).2.2.2.2.2.1,
   (C2_backoff_bounds ⟨3, "exponential", 5, 100⟩ 2 1 (by decide) (by norm_num)
      (by simp [preJitterDelay]; norm_num)).2.2.2.2.2.2⟩

/-! ## Circuit-breaker state evolution -/

/-- A sequence of `record_failure` calls at the given times. -/
def applyFailures (cb : CircuitBreaker) : List ℚ → CircuitBreaker
  | [] => cb
  | t :: ts => applyFailures (cb.record_failure t) ts

theorem record_failure_fields (cb : CircuitBreaker) (t : ℚ) :
    (cb.record_failure t).failures = cb.failures + 1
    ∧ (cb.record_failure t).failure_threshold = cb.failure_threshold
    ∧ (cb.record_failure t).reset_timeout = cb.reset_timeout
    ∧ (cb.record_failure t).last_failure_time = some t
    ∧ (cb.record_failure t).state =
        (if cb.failure_threshold ≤ cb.failures + 1 then CBState.isOpen else cb.state) := by
  unfold CircuitBreaker.record_failure
  split_ifs with h <;> simp_all

theorem applyFailures_core (ts : List ℚ) (cb : CircuitBreaker)
    (hinv : cb.state =
      (if cb.failure_threshold ≤ cb.failures then CBState.isOpen else CBState.closed)) :
    (applyFailures cb ts).failures = cb.failures + ts.length
    ∧ (applyFailures cb ts).failure_threshold = cb.failure_threshold
    ∧ (applyFailures cb ts).reset_timeout = cb.reset_timeout
    ∧ (applyFailures cb ts).last_failure_time =
        ts.foldl (fun _ t => some t) cb.last_failure_time
    ∧ (applyFailures cb ts).state =
        (if cb.failure_threshold ≤ cb.failures + ts.length then CBState.isOpen
         else CBState.closed) := by
  induction ts generalizing cb with
  | nil => simpa [applyFailures] using hinv
  | cons t ts ih =>
    obtain ⟨hf, hthr, hrt, hlast, hstate⟩ := record_failure_fields cb t
    have hinv' : (cb.record_failure t).state =
        (if (cb.record_failure t).failure_threshold ≤ (cb.record_failure t).failures
         then CBState.isOpen else CBState.closed) := by
      rw [hstate, hthr, hf]
      split_ifs with h
      · rfl
      · rw [hinv, if_neg]
        omega
    obtain ⟨h1, h2, h3, h4, h5⟩ := ih (cb.record_failure t) hinv'
    rw [hlast] at h4
    simp only [applyFailures, List.length_cons, List.foldl_cons]
    refine ⟨?_, ?_, ?_, h4, ?_⟩
    · rw [h1, hf]; omega
    · rw [h2, hthr]
    · rw [h3, hrt]
    · rw [h5, hthr, hf]
      have harith : cb.failures + 1 + ts.length = cb.failures + (ts.length + 1) := by omega
      rw [harith]

/-- C5: starting from a fresh (Closed) breaker with `failure_threshold ≥ 1`,
after a sequence of `record_failure` calls the failure count equals the
number of calls, the state is Closed strictly below the threshold and Open
from the call that reaches it onward (so the Closed→Open transition
happens exactly at that call — this instance quantifies over every prefix
length), the `last_failure_time` is the time of the last call, and while
Open every `can_request` issued before `reset_timeout` has elapsed since
that time returns false and leaves the breaker unchanged. -/
theorem C5_breaker_opens_at_threshold (thr : ℕ) (rt : ℚ) (ts : List ℚ) (tn : ℚ)
    (hthr : 1 ≤ thr) :
    (applyFailures (CircuitBreaker.fresh thr rt) (ts ++ [tn])).failures = ts.length + 1
    ∧ (applyFailures (CircuitBreaker.fresh thr rt) (ts ++ [tn])).state =
        (if thr ≤ ts.length + 1 then CBState.isOpen else CBState.closed)
    ∧ (applyFailures (CircuitBreaker.fresh thr rt) (ts ++ [tn])).last_failure_time = some tn
    ∧ (∀ now : ℚ, thr ≤ ts.length + 1 → now - tn ≤ rt →
        (applyFailures (CircuitBreaker.fresh thr rt) (ts ++ [tn])).can_request now =
          (applyFailures (CircuitBreaker.fresh thr rt) (ts ++ [tn]), false)) := by
  have hfresh : (CircuitBreaker.fresh thr rt).state =
      (if (CircuitBreaker.fresh thr rt).failure_threshold ≤
          (CircuitBreaker.fresh thr rt).failures
       then CBState.isOpen else CBState.closed) := by
    simp only [CircuitBreaker.fresh]
    rw [if_neg]
    omega
  obtain ⟨h1, h2, h3, h4, h5⟩ :=
    applyFailures_core (ts ++ [tn]) (CircuitBreaker.fresh thr rt) hfresh
  have hfl : (applyFailures (CircuitBreaker.fresh thr rt) (ts ++ [tn])).failures =
      ts.length + 1 := by
    rw [h1]; simp [CircuitBreaker.fresh]
  have hst : (applyFailures (CircuitBreaker.fresh thr rt) (ts ++ [tn])).state =
      (if thr ≤ ts.length + 1 then CBState.isOpen else CBState.closed) := by
    rw [h5]; simp [CircuitBreaker.fresh]
  have hlast : (applyFailures (CircuitBreaker.fresh thr rt) (ts ++ [tn])).last_failure_time =
      some tn := by
    rw [h4, List.foldl_append]
    rfl
  refine ⟨hfl, hst, hlast, ?_⟩
  intro now hn hle
  have hopen : (applyFailures (CircuitBreaker.fresh thr rt) (ts ++ [tn])).state =
      CBState.isOpen := by
    rw [hst, if_pos hn]
  have hrt' : (applyFailures (CircuitBreaker.fresh thr rt) (ts ++ [tn])).reset_timeout =
      rt := by
    rw [h3]
    rfl
  unfold CircuitBreaker.can_request CircuitBreaker.timeElapsed
  rw [hopen, hlast, hrt']
  simp [not_lt.mpr hle]

/-- Witness for C5: a fresh breaker with threshold 2 and reset timeout 30,
after failures at times 1 and 2, refuses a request at time 10. -/
theorem C5_breaker_opens_at_threshold_witness :
    (applyFailures (CircuitBreaker.fresh 2 30) ([1] ++ [2])).can_request 10 =
      (applyFailures (CircuitBreaker.fresh 2 30) ([1] ++ [2]), false) :=
  (C5_breaker_opens_at_threshold 2 30 [1] 2 (by decide)).2.2.2 10 (by decide) (by norm_num)

/-- C6 counterexample: drive a concrete breaker (threshold 1, reset
timeout 30) to HalfOpen by a `record_failure` at time 1 followed by a
`can_request` at time 100 (which returns true); a second `can_request`,
with no intervening `record_success` or `record_failure`, returns true —
the claim requires it to return false. -/
theorem C6_half_open_counterexample :
    ((((CircuitBreaker.fresh 1 30).record_failure 1).can_request 100).1).state =
      CBState.halfOpen
    ∧ (((CircuitBreaker.fresh 1 30).record_failure 1).can_request 100).2 = true
    ∧ ¬ ((((CircuitBreaker.fresh 1 30).record_failure 1).can_request 100).1.can_request
          100).2 = false := by
  refine ⟨?_, ?_, ?_⟩ <;>
    · simp [CircuitBreaker.fresh, CircuitBreaker.record_failure, CircuitBreaker.can_request,
        CircuitBreaker.timeElapsed]
      norm_num
      try decide

/-- C6 (amended): when the breaker is Open with more than `reset_timeout`
elapsed since `last_failure_time`, `can_request` transitions it to
HalfOpen and returns true; but HalfOpen does not block subsequent probes:
while the state is HalfOpen every further `can_request` also returns true
and leaves the state unchanged. HalfOpen is exited only by
`record_success` (which closes the breaker) or by a `record_failure`
(which opens it if the count reaches the threshold and otherwise leaves
it HalfOpen). -/
theorem C6_half_open_probes (cb : CircuitBreaker) (now now2 : ℚ) (t : ℚ)
    (hst : cb.state = CBState.isOpen) (hlt : cb.last_failure_time = some t)
    (helap : now - t > cb.reset_timeout) :
    cb.can_request now = ({ cb with state := CBState.halfOpen }, true)
    ∧ ({ cb with state := CBState.halfOpen } : CircuitBreaker).can_request now2 =
        ({ cb with state := CBState.halfOpen }, true)
    ∧ ({ cb with state := CBState.halfOpen } : CircuitBreaker).record_success.state =
        CBState.closed
    ∧ (({ cb with state := CBState.halfOpen } : CircuitBreaker).record_failure now2).state =
        (if cb.failure_threshold ≤ cb.failures + 1 then CBState.isOpen
         else CBState.halfOpen) := by
  refine ⟨?_, ?_, rfl, ?_⟩
  · unfold CircuitBreaker.can_request CircuitBreaker.timeElapsed
    rw [hst, hlt]
    simp [helap]
  · unfold CircuitBreaker.can_request CircuitBreaker.timeElapsed
    simp
  · unfold CircuitBreaker.record_failure
    split_ifs with h <;> simp_all

/-- Witness for C6 (amended): the concrete HalfOpen breaker obtained from
a threshold-1 breaker lets a second probe through at time 200. -/
theorem C6_half_open_probes_witness :
    ({ (CircuitBreaker.fresh 1 30).record_failure 1 with state := CBState.halfOpen }
        : CircuitBreaker).can_request 200 =
      ({ (CircuitBreaker.fresh 1 30).record_failure 1 with state := CBState.halfOpen }, true) :=
  (C6_half_open_probes ((CircuitBreaker.fresh 1 30).record_failure 1) 100 200 1
    (by simp [CircuitBreaker.fresh, CircuitBreaker.record_failure])
    (by simp [CircuitBreaker.fresh, CircuitBreaker.record_failure])
    (by simp [CircuitBreaker.fresh, CircuitBreaker.record_failure]; norm_num)).2.1

/-! ## Retry exhaustion and the swallowed circuit-open error -/

/-- Invariant run of the loop for an operation that never succeeds while
the breaker never blocks: each iteration consumes one unit of fuel, one
invocation and one failure, ending in the exhaustion error. -/
theorem retryGo_always_fails {α : Type} (op : ℕ → OpResult α) (tick jit : ℕ → ℚ)
    (opts : RetryOptions) (hfail : ∀ k, errOf (op k) ≠ none) :
    ∀ fuel attempts cb lastErr inv sleeps,
      fuel + attempts = opts.max_retries →
      (1 ≤ fuel → cb.state = CBState.closed) →
      cb.failures = attempts →
      opts.max_retries ≤ cb.failure_threshold →
      lastErr = (if attempts = 0 then none else errOf (op (attempts - 1))) →
      1 ≤ opts.max_retries →
      (retryGo op tick jit opts fuel attempts cb lastErr inv sleeps).result =
        RetryResult.err ⟨"Max retries reached (" ++ toString opts.max_retries ++ ")",
          errOf (op (opts.max_retries - 1)), opts.max_retries⟩
      ∧ (retryGo op tick jit opts fuel attempts cb lastErr inv sleeps).invocations =
          inv + fuel := by
  intro fuel
  induction fuel with
  | zero =>
    intro attempts cb lastErr inv sleeps hsum hst hfl hthr hlast hmax
    have ha : attempts = opts.max_retries := by omega
    subst ha
    rw [hlast, if_neg (by omega)]
    exact ⟨rfl, rfl⟩
  | succ fuel ih =>
    intro attempts cb lastErr inv sleeps hsum hst hfl hthr hlast hmax
    have hstc : cb.state = CBState.closed := hst (by omega)
    have hcan : cb.can_request (tick attempts) = (cb, true) := by
      simp [CircuitBreaker.can_request, hstc]
    obtain ⟨hrf, hrthr, hrrt, hrlast, hrstate⟩ :=
      record_failure_fields cb (tick attempts)
    have hnewfl : (cb.record_failure (tick attempts)).failures = attempts + 1 := by
      rw [hrf, hfl]
    have hnewthr : opts.max_retries ≤ (cb.record_failure (tick attempts)).failure_threshold := by
      rw [hrthr]; exact hthr
    have hnewst : 1 ≤ fuel → (cb.record_failure (tick attempts)).state = CBState.closed := by
      intro hf
      rw [hrstate, hfl, if_neg (by omega), hstc]
    cases hop : op attempts with
    | ok v =>
      exact absurd (by rw [hop]; rfl : errOf (op attempts) = none) (hfail attempts)
    | transientErr e =>
      have hrec := ih (attempts + 1) (cb.record_failure (tick attempts))
        (some (PyErr.opErr e)) (inv + 1) sleeps (by omega) hnewst hnewfl hnewthr
        (by simp [hop, errOf]) hmax
      simp only [retryGo, hcan, hop]
      refine ⟨?_, ?_⟩
      · simpa using hrec.1
      · have h2 := hrec.2
        simp only [Nat.add_assoc] at h2 ⊢
        simpa [Nat.add_comm 1 fuel] using h2
    | otherErr e =>
      have hred : retryGo op tick jit opts (fuel + 1) attempts cb lastErr inv sleeps =
          (if attempts + 1 ≥ opts.max_retries then
            ⟨RetryResult.err ⟨"Max retries reached (" ++ toString opts.max_retries ++ ")",
              some (PyErr.opErr e), attempts + 1⟩, inv + 1, sleeps⟩
          else
            retryGo op tick jit opts fuel (attempts + 1)
              (cb.record_failure (tick attempts)) (some (PyErr.opErr e)) (inv + 1)
              (sleeps ++ [calculate_delay opts (attempts + 1) (jit (attempts + 1))])) := by
        simp [retryGo, hcan, hop]
      by_cases hb : attempts + 1 ≥ opts.max_retries
      · have ha1 : attempts + 1 = opts.max_retries := by omega
        have hae : attempts = opts.max_retries - 1 := by omega
        rw [hred, if_pos hb]
        refine ⟨?_, ?_⟩
        · have hlast2 : errOf (op (opts.max_retries - 1)) = some (PyErr.opErr e) := by
            rw [← hae, hop]
            rfl
          rw [hlast2, ← ha1]
        · show inv + 1 = inv + (fuel + 1)
          omega
      · have hrec := ih (attempts + 1) (cb.record_failure (tick attempts))
          (some (PyErr.opErr e)) (inv + 1)
          (sleeps ++ [calculate_delay opts (attempts + 1) (jit (attempts + 1))])
          (by omega) hnewst hnewfl hnewthr
          (by simp [hop, errOf]) hmax
        rw [hred, if_neg hb]
        refine ⟨hrec.1, ?_⟩
        rw [hrec.2]
        omega

/-- C3: with a breaker starting Closed (no accumulated failures) whose
`failure_threshold` is at least `max_retries`, an operation that fails on
every invocation is invoked exactly `max_retries` times, and `retry`
raises the exhaustion `RetryError` whose `attempts` field equals
`max_retries` and whose `last_error` is the error of the final attempt. -/
theorem C3_retry_exhaustion {α : Type} (op : ℕ → OpResult α) (tick jit : ℕ → ℚ)
    (opts : RetryOptions) (cb : CircuitBreaker)
    (hfail : ∀ k, errOf (op k) ≠ none)
    (hclosed : cb.state = CBState.closed) (hzero : cb.failures = 0)
    (hthr : opts.max_retries ≤ cb.failure_threshold)
    (hmax : 1 ≤ opts.max_retries) :
    (retry op tick jit opts cb).result =
      RetryResult.err ⟨"Max retries reached (" ++ toString opts.max_retries ++ ")",
        errOf (op (opts.max_retries - 1)), opts.max_retries⟩
    ∧ (retry op tick jit opts cb).invocations = opts.max_retries := by
  have h := retryGo_always_fails op tick jit opts hfail opts.max_retries 0 cb none 0 []
    (by omega) (fun _ => hclosed) hzero hthr (by simp) hmax
  exact ⟨h.1, by simpa using h.2⟩

/-- Witness for C3: an operation always raising `boom` with
`max_retries = 2` and threshold 5 is invoked twice and the exhaustion
error carries `attempts = 2` and `last_error = boom`. -/
theorem C3_retry_exhaustion_witness :
    (retry (α := Unit) (fun _ => OpResult.otherErr "boom") (fun _ => 0) (fun _ => 0)
        ⟨2, "fixed", 1, 10⟩ (CircuitBreaker.fresh 5 30)).result =
      RetryResult.err ⟨"Max retries reached (" ++ toString 2 ++ ")",
        some (PyErr.opErr "boom"), 2⟩
    ∧ (retry (α := Unit) (fun _ => OpResult.otherErr "boom") (fun _ => 0) (fun _ => 0)
        ⟨2, "fixed", 1, 10⟩ (CircuitBreaker.fresh 5 30)).invocations = 2 :=
  C3_retry_exhaustion (fun _ => OpResult.otherErr "boom") (fun _ => 0) (fun _ => 0)
    ⟨2, "fixed", 1, 10⟩ (CircuitBreaker.fresh 5 30)
    (fun _ => by simp [errOf]) rfl rfl (by decide) (by decide)

/-- C4: the claim says a circuit-open check failure makes `retry` fail
immediately with the distinct circuit-open error, without invoking the
operation or sleeping that iteration's backoff.  In the source the
`raise RetryError('Circuit breaker is open', ...)` at retry_manager.py
line 82 sits inside the try block, and `RetryError` subclasses
`Exception`, so the loop's own `except Exception` arm catches it: the
blocked iteration counts as an attempt, records a breaker failure, sleeps
a backoff delay unless exhausted, and the circuit-open error never
escapes — the call finally raises the ordinary exhaustion error whose
`last_error` is the swallowed circuit-open `RetryError`.  Evaluated at
the failing input (threshold 1, `max_retries` 3, an operation always
raising `boom`, one-second ticks): one invocation, then two blocked
iterations, the first of which sleeps a backoff delay, ending in the
exhaustion error with `attempts = 3`. -/
theorem C4_circuit_open_swallowed :
    retry (α := Unit) (fun _ => OpResult.otherErr "boom") (fun k => (k : ℚ)) (fun _ => 0)
        ⟨3, "fixed", 1, 10⟩ (CircuitBreaker.fresh 1 30) =
      ⟨RetryResult.err ⟨"Max retries reached (" ++ toString (3 : ℕ) ++ ")",
        some (PyErr.circuitOpen 2), 3⟩, 1, [1, 1]⟩ := by
  simp [retry, retryGo, CircuitBreaker.fresh, CircuitBreaker.record_failure,
    CircuitBreaker.can_request, CircuitBreaker.timeElapsed, calculate_delay,
    preJitterDelay]
  norm_num

/-! ## Prioritization entry point and its error handler —
`priority_manager.py` lines 51–83 and 165–168

`handle_prioritization_error` awaits
`self.retry_manager.handle_error("prioritization", error)`.  The methods
`class RetryManager` actually defines (retry_manager.py lines 60–168) are
listed below; Python raises `AttributeError` when a call names a method
the class does not define. -/

def retryManagerMethodNames : List String :=
  ["__init__", "retry", "calculate_delay", "fibonacci", "perform_with_retry",
   "initialize", "cleanup", "__aenter__", "__aexit__"]

/-- Python attribute access for a method call on a `RetryManager`
instance: calling an undefined method raises `AttributeError`. -/
def callRetryManagerMethod (name : String) : Except String Unit :=
  if name ∈ retryManagerMethodNames then Except.ok ()
  else Except.error ("AttributeError: RetryManager object has no attribute " ++ name)

/-- `PriorityManager.handle_prioritization_error` (lines 165–168): log,
await `retry_manager.handle_error("prioritization", error)`, then await
`health_check.record_error("prioritization", str(error))`.  Returns the
health error records made; an exception inside the handler itself is the
`Except.error` case. -/
def handle_prioritization_error (error : String) :
    Except String (List (String × String)) :=
  match callRetryManagerMethod "handle_error" with
  | Except.ok _ => Except.ok [("prioritization", error)]
  | Except.error e => Except.error e

/-- The try-block of `prioritize_slots_for_slot_checker` when the
security hook's outcome is `sec`: validation and ranking are the pure
functions above and do not raise. -/
def prioritizeBody (sec : Except String Unit) (now : ℚ) (slots : List Slot) :
    Except String (List Slot) :=
  match sec with
  | Except.ok _ => Except.ok (apply_prioritization_strategy (validate_slots now slots))
  | Except.error e => Except.error e

/-- `prioritize_slots_for_slot_checker` (lines 51–83): the try-block
(security hook, validation, ranking, event recording) is abstracted by
its outcome `body`.  On success the source returns the prioritized list;
on an exception it runs `handle_prioritization_error` and then
`return []` — but an exception raised inside the handler propagates to
the caller.  The result pairs the returned list with the health error
records made during the call. -/
def prioritize_slots_for_slot_checker (body : Except String (List Slot)) :
    Except String (List Slot × List (String × String)) :=
  match body with
  | Except.ok r => Except.ok (r, [])
  | Except.error e =>
    match handle_prioritization_error e with
    | Except.ok recs => Except.ok ([], recs)
    | Except.error e2 => Except.error e2

/-- C8: the claim says every exception raised inside the prioritization
entry point is caught, reported to the health monitor, and `[]` is
returned.  In the source, the handler calls
`self.retry_manager.handle_error`, but `RetryManager` defines no
`handle_error` method, so the handler raises `AttributeError` and the
exception propagates out of `prioritize_slots_for_slot_checker`: the call
neither records the error with the health monitor nor returns `[]`.  (On
an exception-free run the entry point does return the ranked valid
slots.) -/
theorem C8_error_policy_broken :
    "handle_error" ∉ retryManagerMethodNames
    ∧ (∀ e : String,
        prioritize_slots_for_slot_checker (Except.error e) =
          Except.error
            ("AttributeError: RetryManager object has no attribute handle_error")
        ∧ ∀ result, prioritize_slots_for_slot_checker (Except.error e) ≠
            Except.ok result)
    ∧ (∀ now : ℚ, ∀ slots : List Slot,
        prioritize_slots_for_slot_checker (prioritizeBody (Except.ok ()) now slots) =
          Except.ok (apply_prioritization_strategy (validate_slots now slots), [])) := by
  refine ⟨by decide, fun e => ⟨rfl, fun result h => ?_⟩, fun now slots => rfl⟩
  exact Except.noConfusion h

/-- Witness for C8: with the try-block raising `boom`, the entry point
propagates the handler's `AttributeError` instead of returning `[]`. -/
theorem C8_error_policy_broken_witness :
    prioritize_slots_for_slot_checker (Except.error "boom") =
      Except.error ("AttributeError: RetryManager object has no attribute handle_error") :=
  (C8_error_policy_broken.2.1 "boom").1

/-! ## Health checks — `src/health_check.py` lines 127–167

`check_components` iterates over the configured endpoint dictionary (so
component names are distinct) and probes each; the probe's observable
outcome is a status/latency response, a timeout, or another exception. -/

inductive HealthStatus where
  | healthy
  | degraded
  | critical
  | unknown
deriving DecidableEq, Repr

/-- `@dataclass class ComponentHealth`: status, response_time,
last_checked (an ISO timestamp string), optional error string. -/
structure ComponentHealth where
  status : HealthStatus
  response_time : ℚ
  last_checked : String
  error : Option String := none
deriving DecidableEq, Repr

inductive ProbeOutcome where
  | response (status : ℕ) (response_time : ℚ)
  | timeout
  | exn (msg : String)
deriving DecidableEq, Repr

/-- The `error_counts` dictionary (with `.get(c, 0)` semantics) and the
`health_status['components']` dictionary. -/
structure HealthState where
  error_counts : String → ℕ
  components : String → Option ComponentHealth

/-- `handle_component_error` (lines 158–167): increment the component's
error count and overwrite its health with CRITICAL, response_time `-1`,
and the error recorded. -/
def handle_component_error (st : HealthState) (comp : String) (error : String)
    (now : String) : HealthState :=
  { error_counts := fun x => if x = comp then st.error_counts comp + 1 else st.error_counts x,
    components := fun x => if x = comp then
        some ⟨HealthStatus.critical, -1, now, some error⟩ else st.components x }

/-- The body of the `check_components` loop (lines 129–156) for one
component: a 200 response resets the error count and marks HEALTHY; any
other status increments it and marks DEGRADED; `asyncio.TimeoutError`
maps to `handle_component_error(c, "Timeout")` and any other exception to
`handle_component_error(c, str(error))`. -/
def checkComponent (st : HealthState) (comp : String) (probe : ProbeOutcome)
    (now : String) : HealthState :=
  match probe with
  | ProbeOutcome.response status rt =>
    if status = 200 then
      { error_counts := fun x => if x = comp then 0 else st.error_counts x,
        components := fun x => if x = comp then
            some ⟨HealthStatus.healthy, rt, now, none⟩ else st.components x }
    else
      { error_counts := fun x => if x = comp then st.error_counts comp + 1
          else st.error_counts x,
        components := fun x => if x = comp then
            some ⟨HealthStatus.degraded, rt, now, none⟩ else st.components x }
  | ProbeOutcome.timeout => handle_component_error st comp "Timeout" now
  | ProbeOutcome.exn msg => handle_component_error st comp msg now

/-- `check_components`: the loop over the configured endpoints, with each
component's probe outcome given. -/
def check_components (st : HealthState) :
    List (String × ProbeOutcome) → String → HealthState
  | [], _ => st
  | q :: rest, now => check_components (checkComponent st q.1 q.2 now) rest now

theorem checkComponent_other (st : HealthState) (comp : String) (p : ProbeOutcome)
    (now : String) (c : String) (hne : c ≠ comp) :
    (checkComponent st comp p now).error_counts c = st.error_counts c
    ∧ (checkComponent st comp p now).components c = st.components c := by
  cases p <;> simp [checkComponent, handle_component_error, hne]
  split_ifs <;> simp_all [hne]

theorem check_components_untouched (rest : List (String × ProbeOutcome))
    (st : HealthState) (now : String) (c : String) (hc : c ∉ rest.map Prod.fst) :
    (check_components st rest now).error_counts c = st.error_counts c
    ∧ (check_components st rest now).components c = st.components c := by
  induction rest generalizing st with
  | nil => exact ⟨rfl, rfl⟩
  | cons q rest ih =>
    simp only [List.map_cons, List.mem_cons, not_or] at hc
    obtain ⟨h1, h2⟩ := checkComponent_other st q.1 q.2 now c hc.1
    obtain ⟨h3, h4⟩ := ih (checkComponent st q.1 q.2 now) hc.2
    exact ⟨h3.trans h1, h4.trans h2⟩

theorem checkComponent_self_congr (st st' : HealthState) (c : String)
    (p : ProbeOutcome) (now : String)
    (hec : st'.error_counts c = st.error_counts c) :
    (checkComponent st' c p now).error_counts c =
      (checkComponent st c p now).error_counts c
    ∧ (checkComponent st' c p now).components c =
      (checkComponent st c p now).components c := by
  cases p <;> simp [checkComponent, handle_component_error, hec]
  split_ifs <;> simp_all [hec]

theorem check_components_fold (probes : List (String × ProbeOutcome))
    (st : HealthState) (now : String) (c : String) (p : ProbeOutcome)
    (hmem : (c, p) ∈ probes) (hnodup : (probes.map Prod.fst).Nodup) :
    (check_components st probes now).error_counts c =
      (checkComponent st c p now).error_counts c
    ∧ (check_components st probes now).components c =
      (checkComponent st c p now).components c := by
  induction probes generalizing st with
  | nil => cases hmem
  | cons q rest ih =>
    simp only [List.map_cons, List.nodup_cons] at hnodup
    rcases List.mem_cons.mp hmem with heq | hmem'
    · subst heq
      exact check_components_untouched rest (checkComponent st c p now) now c hnodup.1
    · have hq : q.1 ≠ c := by
        intro h
        exact hnodup.1 (h ▸ List.mem_map_of_mem Prod.fst hmem')
      obtain ⟨hu1, _⟩ := checkComponent_other st q.1 q.2 now c (Ne.symm hq)
      obtain ⟨hc1, hc2⟩ :=
        checkComponent_self_congr st (checkComponent st q.1 q.2 now) c p now hu1
      obtain ⟨hf1, hf2⟩ := ih (checkComponent st q.1 q.2 now) hmem' hnodup.2
      exact ⟨hf1.trans hc1, hf2.trans hc2⟩

/-- C9: for each configured component probed by `check_components` (the
endpoint dictionary makes names distinct): a 200 response sets the
component Healthy and resets its error count to 0; a non-200 response
increments the count and sets Degraded; a timeout or any exception
increments the count and sets Critical with the error recorded (the
timeout as the string `Timeout`). -/
theorem C9_component_probe_cases (st : HealthState)
    (probes : List (String × ProbeOutcome)) (now : String) (c : String)
    (p : ProbeOutcome) (hmem : (c, p) ∈ probes)
    (hnodup : (probes.map Prod.fst).Nodup) :
    (∀ rt, p = ProbeOutcome.response 200 rt →
        (check_components st probes now).error_counts c = 0
        ∧ (check_components st probes now).components c =
            some ⟨HealthStatus.healthy, rt, now, none⟩)
    ∧ (∀ s rt, p = ProbeOutcome.response s rt → s ≠ 200 →
        (check_components st probes now).error_counts c = st.error_counts c + 1
        ∧ (check_components st probes now).components c =
            some ⟨HealthStatus.degraded, rt, now, none⟩)
    ∧ (p = ProbeOutcome.timeout →
        (check_components st probes now).error_counts c = st.error_counts c + 1
        ∧ (check_components st probes now).components c =
            some ⟨HealthStatus.critical, -1, now, some "Timeout"⟩)
    ∧ (∀ msg, p = ProbeOutcome.exn msg →
        (check_components st probes now).error_counts c = st.error_counts c + 1
        ∧ (check_components st probes now).components c =
            some ⟨HealthStatus.critical, -1, now, some msg⟩) := by
  obtain ⟨hec, hcc⟩ := check_components_fold probes st now c p hmem hnodup
  refine ⟨?_, ?_, ?_, ?_⟩
  · rintro rt rfl
    rw [hec, hcc]
    exact ⟨by simp [checkComponent], by simp [checkComponent]⟩
  · rintro s rt rfl hs
    rw [hec, hcc]
    exact ⟨by simp [checkComponent, hs], by simp [checkComponent, hs]⟩
  · rintro rfl
    rw [hec, hcc]
    exact ⟨by simp [checkComponent, handle_component_error],
      by simp [checkComponent, handle_component_error]⟩
  · rintro msg rfl
    rw [hec, hcc]
    exact ⟨by simp [checkComponent, handle_component_error],
      by simp [checkComponent, handle_component_error]⟩

/-- Witness for C9: probing `api` (200) and `db` (timeout) from a zeroed
state marks `db` Critical with the `Timeout` error and error count 1. -/
theorem C9_component_probe_cases_witness :
    (check_components ⟨fun _ => 0, fun _ => none⟩
        [("api", ProbeOutcome.response 200 1), ("db", ProbeOutcome.timeout)]
        "t").error_counts "db" = 1
    ∧ (check_components ⟨fun _ => 0, fun _ => none⟩
        [("api", ProbeOutcome.response 200 1), ("db", ProbeOutcome.timeout)]
        "t").components "db" =
      some ⟨HealthStatus.critical, -1, "t", some "Timeout"⟩ :=
  (C9_component_probe_cases ⟨fun _ => 0, fun _ => none⟩
    [("api", ProbeOutcome.response 200 1), ("db", ProbeOutcome.timeout)]
    "t" "db" ProbeOutcome.timeout (by simp) (by simp)).2.2.1 rfl

end VSF
